import Mathlib

/-!
Verification of the pipeline-compilation core of melange (src/pkg/build/compile.go).

The Go source is embedded shallowly: structs become Lean structures, in-place
mutation becomes explicit state passing, `error` returns become `Except String`,
and Go's panic on a nil-pointer dereference becomes an explicit error value.
Recursive pipeline compilation can diverge in Go (a template may reference
templates indefinitely), so the recursive functions take an explicit fuel
argument; running out of fuel is an error distinct from every error the Go
code can produce.

External collaborators of the compilation core that are part of the melange
repository but outside the provided source (the substitution-map constructors,
`util.MutateStringFromMap`, `util.MutateAndQuoteStringFromMap`,
`util.RightJoinMap`, `validateWith`, `SubstitutionMap.MutateWith`,
`cond.Evaluate`, `computeExternalRefs`) are modelled from the spec; each such
definition carries a doc comment starting with `Modelled from the spec:`.
Genuinely external collaborators (the filesystem, the embedded template
catalog, the YAML deserializer) are parameters collected in `Env`.
-/

/-- One declared input of a pipeline template (config.Input): a default value
and whether the input is required. -/
structure Input where
  Default : String
  Required : Bool
deriving DecidableEq, Repr

/-- One node of a pipeline tree (config.Pipeline). `Needs` models the Go
pointer `*Needs` with its `Packages` list flattened: `none` is a nil pointer.
The final field, accessed through `Pipeline.children` below, models the
nested `Pipeline []Pipeline` list of child steps (renamed only because a
projection cannot shadow the type's own name). -/
inductive Pipeline : Type where
  | mk (Name : String) (Uses : String) (With : List (String × String))
       (Inputs : List (String × Input)) (Runs : String) (WorkDir : String)
       (If : String) (Needs : Option (List String)) (children : List Pipeline)

def Pipeline.Name : Pipeline → String
  | .mk v _ _ _ _ _ _ _ _ => v

def Pipeline.Uses : Pipeline → String
  | .mk _ v _ _ _ _ _ _ _ => v

def Pipeline.With : Pipeline → List (String × String)
  | .mk _ _ v _ _ _ _ _ _ => v

def Pipeline.Inputs : Pipeline → List (String × Input)
  | .mk _ _ _ v _ _ _ _ _ => v

def Pipeline.Runs : Pipeline → String
  | .mk _ _ _ _ v _ _ _ _ => v

def Pipeline.WorkDir : Pipeline → String
  | .mk _ _ _ _ _ v _ _ _ => v

def Pipeline.If : Pipeline → String
  | .mk _ _ _ _ _ _ v _ _ => v

def Pipeline.Needs : Pipeline → Option (List String)
  | .mk _ _ _ _ _ _ _ v _ => v

/-- The nested child-step list (the Go field is itself called `Pipeline`). -/
def Pipeline.children : Pipeline → List Pipeline
  | .mk _ _ _ _ _ _ _ _ v => v

/-- Replace the `With` field (the in-place `p.With = ...` mutation). -/
def Pipeline.setWith : Pipeline → List (String × String) → Pipeline
  | .mk n u _ i r w f nd ch, v => .mk n u v i r w f nd ch

/-- Replace the `Needs` field (the in-place `pipeline.Needs = nil` mutation). -/
def Pipeline.setNeeds : Pipeline → Option (List String) → Pipeline
  | .mk n u w i r wd f _ ch, v => .mk n u w i r wd f v ch

/-- One provenance reference (package-URL-style, purl.PackageURL): the template
identity plus the substituted parameters it was derived from. -/
structure ExternalRef where
  Name : String
  Qualifiers : List (String × String)
deriving DecidableEq, Repr

/-- The aggregation accumulator (Compiled). -/
structure Compiled where
  PipelineDirs : List String
  Needs : List String
  ExternalRefs : List ExternalRef
deriving DecidableEq, Repr

structure PackageDecl where
  Name : String
deriving DecidableEq, Repr

/-- A test section (config.Test). `EnvironmentPackages` flattens the Go field
path `Test.Environment.Contents.Packages`. -/
structure TestSection where
  EnvironmentPackages : List String
  Pipeline : List Pipeline

/-- A subpackage (config.Subpackage). `Test` models the Go pointer
`*config.Test`, `none` being nil. -/
structure Subpackage where
  Name : String
  If : String
  Pipeline : List Pipeline
  Test : Option TestSection

/-- The package configuration (config.Configuration). `EnvironmentPackages`
flattens `Environment.Contents.Packages`; `Test` models `*config.Test`. -/
structure Configuration where
  Package : PackageDecl
  EnvironmentPackages : List String
  Pipeline : List Pipeline
  Subpackages : List Subpackage
  Test : Option TestSection

/-- The substitution context for one build scope (SubstitutionMap). Keys are
full substitution tokens. -/
structure SubstitutionMap where
  Substitutions : List (String × String)
deriving DecidableEq, Repr

/-- The standalone test entry point receiver (build.Test). -/
structure Test where
  Configuration : Configuration
  Package : String
  Arch : String
  PipelineDirs : List String

/-- The build entry point receiver (build.Build). `BuildFlavor` models the
method of the same name as a field; `externalRefs` is the exported reference
list set by Compile. -/
structure Build where
  Configuration : Configuration
  Arch : String
  BuildFlavor : String
  EnabledBuildOptions : List String
  PipelineDirs : List String
  externalRefs : List ExternalRef

/-- The dollar character of a substitution token. -/
def dollarCh : Char := Char.ofNat 36

/-- The opening-brace character of a substitution token. -/
def lbrCh : Char := Char.ofNat 123

/-- The closing-brace character of a substitution token. -/
def rbrCh : Char := Char.ofNat 125

/-- The single-quote character used by the shell-quoting substitution. -/
def squoteCh : Char := Char.ofNat 39

/-- Character scanner behind the substitution routines: copies text, and on a
token opener collects the token name up to the closing braces, replaces the
full token by its value from the table (wrapped in single quotes when `quote`
is set), and fails on a token whose full text is not a key of the table or
that is never closed. `inTok` and `acc` are the scanner state. -/
def substChars (m : List (String × String)) (quote : Bool) :
    Bool → List Char → List Char → Except String (List Char)
  | false, _, [] => .ok []
  | false, _, [c] => .ok [c]
  | false, _, [c, d] => .ok [c, d]
  | false, acc, c1 :: c2 :: c3 :: cs =>
    if c1 = dollarCh ∧ c2 = lbrCh ∧ c3 = lbrCh then
      substChars m quote true [] cs
    else
      match substChars m quote false acc (c2 :: c3 :: cs) with
      | .error e => .error e
      | .ok r => .ok (c1 :: r)
  | true, _, [] => .error "unterminated substitution token"
  | true, _, [_] => .error "unterminated substitution token"
  | true, acc, c1 :: c2 :: cs =>
    if c1 = rbrCh ∧ c2 = rbrCh then
      let key := String.mk (dollarCh :: lbrCh :: lbrCh :: (acc.reverse ++ [rbrCh, rbrCh]))
      match List.lookup key m with
      | some v =>
        match substChars m quote false [] cs with
        | .error e => .error e
        | .ok r =>
          .ok ((if quote then squoteCh :: (v.data ++ [squoteCh]) else v.data) ++ r)
      | none => .error ("variable " ++ key ++ " not found")
    else
      substChars m quote true (c1 :: acc) (c2 :: cs)

/-- Modelled from the spec: util.MutateStringFromMap, the low-level
string-template substitution routine (an external collaborator, spec sections
1 and 6): rewrites every substitution token of the text against the table and
fails loudly on an unresolved token. -/
def MutateStringFromMap (m : List (String × String)) (s : String) : Except String String :=
  match substChars m false false [] s.data with
  | .error e => .error e
  | .ok cs => .ok (String.mk cs)

/-- Modelled from the spec: util.MutateAndQuoteStringFromMap, the shell-safe
quoting variant of the substitution routine (spec section 6): substituted
values are additionally wrapped in single quotes. -/
def MutateAndQuoteStringFromMap (m : List (String × String)) (s : String) : Except String String :=
  match substChars m true false [] s.data with
  | .error e => .error e
  | .ok cs => .ok (String.mk cs)

/-- Modelled from the spec: cond.Evaluate, the boolean conditional-expression
evaluator (an external collaborator, spec section 6): produces a boolean for a
valid expression and an error for a malformed one; the literal truth words
are the valid expressions of the model. -/
def condEvaluate (s : String) : Except String Bool :=
  if s = "true" then .ok true
  else if s = "false" then .ok false
  else .error ("unable to evaluate: " ++ s)

/-- The namespaced key under which one declared input is entered into the
mutated substitution table (conceptually `inputs.<name>`). -/
def inputsKey (k : String) : String :=
  "$\x7b\x7binputs." ++ k ++ "\x7d\x7d"

/-- Modelled from the spec: validateWith (spec section 4.2, step 2): every
override key must correspond to a declared input, every required input
without a default and without an override fails validation, and the produced
validated table carries, for each declared input, its override when present
and its declared default otherwise. -/
def validateWith (data : List (String × String)) (inputs : List (String × Input)) :
    Except String (List (String × String)) :=
  match data.find? (fun kv => (List.lookup kv.1 inputs).isNone) with
  | some kv => .error ("unexpected input " ++ kv.1 ++ " for pipeline")
  | none =>
    match inputs.find? (fun ki =>
        ki.2.Required && ki.2.Default == "" && (List.lookup ki.1 data).isNone) with
    | some ki => .error ("required input " ++ ki.1 ++ " for pipeline is missing")
    | none =>
      .ok (inputs.map (fun ki => (ki.1, ((List.lookup ki.1 data).getD ki.2.Default))))

/-- Modelled from the spec: SubstitutionMap.MutateWith (spec section 4.2,
step 3): the mutated table is the global context entries plus one entry per
validated input under its namespaced key; an input entry shadows a same-named
global entry. -/
def SubstitutionMap.MutateWith (sm : SubstitutionMap) (validated : List (String × String)) :
    Except String (List (String × String)) :=
  .ok (validated.map (fun kv => (inputsKey kv.1, kv.2)) ++ sm.Substitutions)

/-- Modelled from the spec: util.RightJoinMap, the right-biased join used to
push the parent's mutated table into a child's parameter-override table (spec
section 4.2, step 6): every key of the right map keeps its right value, keys
only in the left map are inherited. -/
def RightJoinMap (left right : List (String × String)) : List (String × String) :=
  left.filter (fun kv => (List.lookup kv.1 right).isNone) ++ right

/-- Modelled from the spec: NewSubstitutionMap, construction of the initial
global substitution table from package, architecture and flavor metadata (an
external collaborator, spec sections 1 and 6). -/
def NewSubstitutionMap (cfg : Configuration) (arch flavor : String)
    (enabledOptions : List String) : Except String SubstitutionMap :=
  .ok ⟨[("$\x7b\x7bpackage.name\x7d\x7d", cfg.Package.Name),
        ("$\x7b\x7bbuild.arch\x7d\x7d", arch),
        ("$\x7b\x7bbuild.flavor\x7d\x7d", flavor)] ++
       enabledOptions.map (fun o => ("$\x7b\x7boptions." ++ o ++ "\x7d\x7d", "true"))⟩

/-- Modelled from the spec: SubstitutionMap.Subpackage, derivation of the
narrower subpackage-scoped child context without mutating the parent (spec
section 3). -/
def SubstitutionMap.Subpackage (sm : SubstitutionMap) (sp : Subpackage) : SubstitutionMap :=
  ⟨("$\x7b\x7bsubpkg.name\x7d\x7d", sp.Name) :: sm.Substitutions⟩

/-- Modelled from the spec: computeExternalRefs / deriveProvenance (spec
sections 4.2 step 5 and 6): one provenance reference per template-using step,
derived from the template identity and the mutated parameters; a step without
a template reference contributes none. -/
def computeExternalRefs (uses : String) (mutated : List (String × String)) :
    Except String (List ExternalRef) :=
  .ok (if uses = "" then [] else [⟨uses, mutated⟩])

/-- The genuinely external collaborators of compilePipeline: `fs` is
os.ReadFile over the pipeline directories (`none` is a read error), `emb` is
ReadFile on the embedded template catalog, and `parse` is the YAML
deserialization of template bytes into a step definition (`none` is a
deserialization failure; per spec section 4.1 the deserialized definition
replaces the step's own fields wholesale). -/
structure Env where
  fs : String → Option String
  emb : String → Option String
  parse : String → Option Pipeline

/-- The path read for a template in one lookup directory,
`filepath.Join(pd, uses+".yaml")`. -/
def tplPath (dir uses : String) : String :=
  dir ++ "/" ++ uses ++ ".yaml"

/-- The path read for a template in the embedded catalog,
`"pipelines/" + uses + ".yaml"`. -/
def embPath (uses : String) : String :=
  "pipelines/" ++ uses ++ ".yaml"

/-- Deserialization of resolved template bytes (`yaml.Unmarshal`), wrapping a
failure with the template name. -/
def parsePipelineData (env : Env) (uses data : String) : Except String Pipeline :=
  match env.parse data with
  | some q => .ok q
  | none => .error ("unable to parse pipeline " ++ uses)

/-- Template resolution for one step (compile.go lines 204-230): a step with
no template reference is returned unchanged; otherwise each lookup directory
is tried in list order and the first successful read wins, with the embedded
catalog as fallback, and the winning bytes are deserialized into the step's
replacement. -/
def resolveStepTemplate (env : Env) (dirs : List String) (p : Pipeline) :
    Except String Pipeline :=
  if p.Uses = "" then .ok p
  else
    match dirs.findSome? (fun pd => env.fs (tplPath pd p.Uses)) with
    | some data => parsePipelineData env p.Uses data
    | none =>
      match env.emb (embPath p.Uses) with
      | some data => parsePipelineData env p.Uses data
      | none => .error ("unable to load pipeline: could not find uses pipeline " ++ p.Uses)

/-- Prefix-wrapping of an error, the fmt.Errorf("...: %w", err) idiom. -/
def wrapErr (pre : String) : Except String α → Except String α
  | .error e => .error (pre ++ e)
  | .ok a => .ok a

/-- Substitution over the required-packages list (compile.go lines 243-250). -/
def mutateNeedsF (mutated : List (String × String)) :
    Option (List String) → Except String (Option (List String))
  | none => .ok none
  | some pkgs =>
    match pkgs.mapM (MutateStringFromMap mutated) with
    | .error e => .error e
    | .ok pkgs2 => .ok (some pkgs2)

/-- Substitution over the working directory, skipped when empty
(compile.go lines 252-257). -/
def mutateWorkDirF (mutated : List (String × String)) (wd : String) :
    Except String String :=
  if wd = "" then .ok wd else MutateStringFromMap mutated wd

/-- Substitution with shell quoting over the condition, skipped when empty
(compile.go lines 264-269). -/
def mutateIfF (mutated : List (String × String)) (cond : String) :
    Except String String :=
  if cond = "" then .ok cond else MutateAndQuoteStringFromMap mutated cond

/-- The post-children cleanup of the parameter-override table (compile.go
lines 288-302): of the originally captured override keys, keep the mutated
value only when it differs from that input's declared default. -/
def cleanWith (withC : List (String × String)) (inputs : List (String × Input))
    (mutated : List (String × String)) : List (String × String) :=
  withC.filterMap (fun kv =>
    let nv := (List.lookup (inputsKey kv.1) mutated).getD ""
    let dv := ((List.lookup kv.1 inputs).map Input.Default).getD ""
    if nv ≠ dv then some (kv.1, nv) else none)

/-- The child-compilation loop of compilePipeline (compile.go lines 279-286),
parameterized over the compilation of one child: each child first has the
parent's mutated table right-joined into its own override table, then is
compiled, in list order, with errors wrapped with the child's ordinal. -/
def compileChildrenWith (compile : Compiled → Pipeline → Except String (Compiled × Pipeline))
    (mutated : List (String × String)) (c : Compiled) (i : Nat) :
    List Pipeline → Except String (Compiled × List Pipeline)
  | [] => .ok (c, [])
  | ch :: rest =>
    match wrapErr ("compiling Pipeline[" ++ toString i ++ "]: ")
        (compile c (ch.setWith (RightJoinMap mutated ch.With))) with
    | .error e => .error e
    | .ok (c2, ch2) =>
      match compileChildrenWith compile mutated c2 (i + 1) rest with
      | .error e => .error e
      | .ok (c3, rest2) => .ok (c3, ch2 :: rest2)

/-- Compilation of one step (Compiled.compilePipeline, compile.go lines
200-308): capture the caller-supplied overrides, resolve and substitute the
template, validate and merge the captured overrides, rewrite the textual
fields, record provenance, compile the children against the mutated table,
then clean the override table and discard the input schema. -/
def compilePipeline (env : Env) (sm : SubstitutionMap) :
    Nat → Compiled → Pipeline → Except String (Compiled × Pipeline)
  | 0 => fun _ _ => .error "maximum pipeline nesting depth exceeded"
  | fuel + 1 => fun c p =>
    let uses := p.Uses
    let withC := p.With
    match resolveStepTemplate env c.PipelineDirs p with
    | .error e => .error e
    | .ok q =>
      match wrapErr "unable to validate with: " (validateWith withC q.Inputs) with
      | .error e => .error e
      | .ok validated =>
        match wrapErr "mutating with: " (SubstitutionMap.MutateWith sm validated) with
        | .error e => .error e
        | .ok mutated =>
          match wrapErr "mutating needs: " (mutateNeedsF mutated q.Needs) with
          | .error e => .error e
          | .ok needs2 =>
            match wrapErr "mutating workdir: " (mutateWorkDirF mutated q.WorkDir) with
            | .error e => .error e
            | .ok wd2 =>
              match wrapErr "mutating runs: " (MutateStringFromMap mutated q.Runs) with
              | .error e => .error e
              | .ok runs2 =>
                match wrapErr "mutating if: " (mutateIfF mutated q.If) with
                | .error e => .error e
                | .ok if2 =>
                  match wrapErr "computing external refs: " (computeExternalRefs uses mutated) with
                  | .error e => .error e
                  | .ok refs =>
                    match compileChildrenWith (compilePipeline env sm fuel) mutated
                        { c with ExternalRefs := c.ExternalRefs ++ refs } 0 q.children with
                    | .error e => .error e
                    | .ok (c2, ch2) =>
                      .ok (c2, .mk q.Name q.Uses (cleanWith withC q.Inputs mutated) []
                        runs2 wd2 if2 needs2 ch2)

/-- Step identity for error reporting (compile.go lines 310-318). -/
def identity (p : Pipeline) : String :=
  if p.Name ≠ "" then p.Name
  else if p.Uses ≠ "" then p.Uses
  else "???"

/-- The child walk of gatherDeps (compile.go lines 342-346), parameterized
over the walk of one child. The Go loop ranges over the children by value and
hands the recursive call a pointer to the loop copy, so the updated child
node is discarded: only the accumulator survives. -/
def gatherDepsChildrenWith (gather : Compiled → Pipeline → Except String (Compiled × Pipeline))
    (c : Compiled) : List Pipeline → Except String Compiled
  | [] => .ok c
  | p :: rest =>
    match gather c p with
    | .error e => .error e
    | .ok (c2, _) => gatherDepsChildrenWith gather c2 rest

/-- The harvesting half of gatherDeps (compile.go lines 333-346): append this
step's required packages, clear its required-packages field, then walk the
children in order. -/
def gatherHarvest (gatherList : Compiled → List Pipeline → Except String Compiled)
    (c : Compiled) (p : Pipeline) : Except String (Compiled × Pipeline) :=
  match p.Needs with
  | some pkgs =>
    let c2 := { c with Needs := c.Needs ++ pkgs }
    let p2 := p.setNeeds none
    match gatherList c2 p2.children with
    | .error e => .error e
    | .ok c3 => .ok (c3, p2)
  | none =>
    match gatherList c p.children with
    | .error e => .error e
    | .ok c3 => .ok (c3, p)

/-- The aggregation pass (Compiled.gatherDeps, compile.go lines 320-348): a
step with a condition has it evaluated, a failure propagates, a false result
prunes the whole subtree, and otherwise the step is harvested. -/
def gatherDeps : Nat → Compiled → Pipeline → Except String (Compiled × Pipeline)
  | 0 => fun _ _ => .error "maximum pipeline nesting depth exceeded"
  | fuel + 1 => fun c p =>
    if p.If ≠ "" then
      match condEvaluate p.If with
      | .error e => .error ("evaluating conditional \"" ++ p.If ++ "\": " ++ e)
      | .ok false => .ok (c, p)
      | .ok true => gatherHarvest (gatherDepsChildrenWith (gatherDeps fuel)) c p
    else gatherHarvest (gatherDepsChildrenWith (gatherDeps fuel)) c p

/-- The indexed loop of CompilePipelines (compile.go lines 186-198): compile
each top-level pipeline, then gather its dependencies, storing the updated
tree back at its slot. -/
def CompilePipelinesGo (env : Env) (sm : SubstitutionMap) (fuel : Nat) :
    Compiled → Nat → List Pipeline → Except String (Compiled × List Pipeline)
  | c, _, [] => .ok (c, [])
  | c, i, p :: rest =>
    match wrapErr ("compiling Pipeline[" ++ toString i ++ "]: ")
        (compilePipeline env sm fuel c p) with
    | .error e => .error e
    | .ok (c2, p2) =>
      match wrapErr ("gathering deps for Pipeline[" ++ toString i ++ "]: ")
          (gatherDeps fuel c2 p2) with
      | .error e => .error e
      | .ok (c3, p3) =>
        match CompilePipelinesGo env sm fuel c3 (i + 1) rest with
        | .error e => .error e
        | .ok (c4, rest2) => .ok (c4, p3 :: rest2)

/-- Compiled.CompilePipelines: compile-and-gather over a pipeline list. -/
def CompilePipelines (env : Env) (sm : SubstitutionMap) (fuel : Nat)
    (c : Compiled) (ps : List Pipeline) : Except String (Compiled × List Pipeline) :=
  CompilePipelinesGo env sm fuel c 0 ps

/-- The subpackage loop of Test.Compile (compile.go lines 60-88). The Go loop
variable `sp` is a value copy: the substituted `sp.If` lives only in the copy,
while the pipeline-element and test-environment mutations reach the stored
configuration through shared backing arrays and the shared `*config.Test`
pointer, which the returned subpackage list reflects. `sp.Test.Pipeline` on a
nil `Test` pointer panics in Go, modelled as an error. Threads the shared
`ignore` and `c` accumulators of the caller. -/
def testSubpkgLoop (env : Env) (fuel : Nat) (dirs : List String) (sm : SubstitutionMap) :
    Compiled → Compiled → List Subpackage →
    Except String (Compiled × Compiled × List Subpackage)
  | ignoreAcc, c, [] => .ok (ignoreAcc, c, [])
  | ignoreAcc, c, sp :: rest =>
    let sm2 := SubstitutionMap.Subpackage sm sp
    match wrapErr "mutating subpackage if: "
        (if sp.If ≠ "" then MutateAndQuoteStringFromMap sm2.Substitutions sp.If
         else .ok sp.If) with
    | .error e => .error e
    | .ok ifSub =>
      let spCopy : Subpackage := { sp with If := ifSub }
      match wrapErr ("compiling subpackage \"" ++ spCopy.Name ++ "\": ")
          (CompilePipelines env sm2 fuel ignoreAcc spCopy.Pipeline) with
      | .error e => .error e
      | .ok (ignoreAcc2, spP2) =>
        let test : Compiled := { PipelineDirs := dirs, Needs := [], ExternalRefs := [] }
        match spCopy.Test with
        | none => .error "invalid memory address or nil pointer dereference"
        | some st =>
          match wrapErr ("compiling subpackage \"" ++ spCopy.Name ++ "\" tests: ")
              (CompilePipelines env sm2 fuel c st.Pipeline) with
          | .error e => .error e
          | .ok (c2, stP2) =>
            let st2 : TestSection :=
              { st with Pipeline := stP2,
                        EnvironmentPackages :=
                          (st.EnvironmentPackages ++ [spCopy.Name]) ++ test.Needs }
            let spStored : Subpackage := { sp with Pipeline := spP2, Test := some st2 }
            match testSubpkgLoop env fuel dirs sm ignoreAcc2 c2 rest with
            | .error e => .error e
            | .ok (ignoreAcc3, c3, rest2) => .ok (ignoreAcc3, c3, spStored :: rest2)

/-- The standalone test entry point (Test.Compile, compile.go lines 32-103):
evaluate the main build pipeline into a discarded accumulator, compile the
main test pipeline and (through the shared accumulator, as written) every
subpackage test pipeline into `c`, append each subpackage's name and its
untouched per-subpackage accumulator's needs to its test environment, and
append the package name (the externally supplied one when set) and `c.Needs`
to the overall test environment. -/
def Test.Compile (env : Env) (fuel : Nat) (t : Test) : Except String Test :=
  let cfg := t.Configuration
  let flavor := "gnu"
  match NewSubstitutionMap cfg t.Arch flavor [] with
  | .error e => .error e
  | .ok sm =>
    let c : Compiled := { PipelineDirs := t.PipelineDirs, Needs := [], ExternalRefs := [] }
    let ignoreAcc : Compiled := { PipelineDirs := t.PipelineDirs, Needs := [], ExternalRefs := [] }
    match wrapErr "compiling main pipelines: "
        (CompilePipelines env sm fuel ignoreAcc cfg.Pipeline) with
    | .error e => .error e
    | .ok (ignoreAcc2, mainP2) =>
      let cfg := { cfg with Pipeline := mainP2 }
      match cfg.Test with
      | none => .error "invalid memory address or nil pointer dereference"
      | some mt =>
        match wrapErr "compiling main pipelines: "
            (CompilePipelines env sm fuel c mt.Pipeline) with
        | .error e => .error e
        | .ok (c2, mtP2) =>
          let cfg := { cfg with Test := some { mt with Pipeline := mtP2 } }
          match testSubpkgLoop env fuel t.PipelineDirs sm ignoreAcc2 c2 cfg.Subpackages with
          | .error e => .error e
          | .ok (_, c3, sps2) =>
            let cfg := { cfg with Subpackages := sps2 }
            match cfg.Test with
            | none => .error "invalid memory address or nil pointer dereference"
            | some mt2 =>
              let pkgName := if t.Package ≠ "" then t.Package else cfg.Package.Name
              let cfg := { cfg with Test := some { mt2 with
                EnvironmentPackages := (mt2.EnvironmentPackages ++ [pkgName]) ++ c3.Needs } }
              .ok { t with Configuration := cfg }

/-- The subpackage loop of Build.Compile (compile.go lines 121-153): compile
each subpackage's build pipeline into the shared accumulator `c`, and, for a
subpackage with a test section, its test pipeline into a fresh accumulator
whose needs are appended (after the subpackage's name) to that subpackage's
test environment. The substituted `If` again lives only in the loop copy. -/
def buildSubpkgLoop (env : Env) (fuel : Nat) (dirs : List String) (sm : SubstitutionMap) :
    Compiled → List Subpackage → Except String (Compiled × List Subpackage)
  | c, [] => .ok (c, [])
  | c, sp :: rest =>
    let sm2 := SubstitutionMap.Subpackage sm sp
    match wrapErr "mutating subpackage if: "
        (if sp.If ≠ "" then MutateAndQuoteStringFromMap sm2.Substitutions sp.If
         else .ok sp.If) with
    | .error e => .error e
    | .ok ifSub =>
      let spCopy : Subpackage := { sp with If := ifSub }
      match wrapErr ("compiling subpackage \"" ++ spCopy.Name ++ "\": ")
          (CompilePipelines env sm2 fuel c spCopy.Pipeline) with
      | .error e => .error e
      | .ok (c2, spP2) =>
        match spCopy.Test with
        | none =>
          match buildSubpkgLoop env fuel dirs sm c2 rest with
          | .error e => .error e
          | .ok (c3, rest2) => .ok (c3, { sp with Pipeline := spP2 } :: rest2)
        | some st =>
          let tc : Compiled := { PipelineDirs := dirs, Needs := [], ExternalRefs := [] }
          match wrapErr ("compiling subpackage \"" ++ spCopy.Name ++ "\" tests: ")
              (CompilePipelines env sm2 fuel tc st.Pipeline) with
          | .error e => .error e
          | .ok (tc2, stP2) =>
            let st2 : TestSection :=
              { st with Pipeline := stP2,
                        EnvironmentPackages :=
                          (st.EnvironmentPackages ++ [spCopy.Name]) ++ tc2.Needs }
            match buildSubpkgLoop env fuel dirs sm c2 rest with
            | .error e => .error e
            | .ok (c3, rest2) =>
              .ok (c3, { sp with Pipeline := spP2, Test := some st2 } :: rest2)

/-- The build entry point (Build.Compile, compile.go lines 106-177): compile
the main pipeline and every subpackage's build pipeline into one shared
accumulator, per-subpackage test pipelines into fresh accumulators feeding
their test environments, append the shared accumulator's needs to the build
environment, compile an optional main test pipeline into a fresh accumulator
feeding the overall test environment (needs first, then the package name),
and export the shared accumulator's provenance references. -/
def Build.Compile (env : Env) (fuel : Nat) (b : Build) : Except String Build :=
  let cfg := b.Configuration
  match NewSubstitutionMap cfg b.Arch b.BuildFlavor b.EnabledBuildOptions with
  | .error e => .error e
  | .ok sm =>
    let c : Compiled := { PipelineDirs := b.PipelineDirs, Needs := [], ExternalRefs := [] }
    match wrapErr "compiling main pipelines: "
        (CompilePipelines env sm fuel c cfg.Pipeline) with
    | .error e => .error e
    | .ok (c2, mainP2) =>
      let cfg := { cfg with Pipeline := mainP2 }
      match buildSubpkgLoop env fuel b.PipelineDirs sm c2 cfg.Subpackages with
      | .error e => .error e
      | .ok (c3, sps2) =>
        let cfg := { cfg with Subpackages := sps2 }
        let cfg := { cfg with EnvironmentPackages := cfg.EnvironmentPackages ++ c3.Needs }
        match cfg.Test with
        | none => .ok { b with Configuration := cfg, externalRefs := c3.ExternalRefs }
        | some mt =>
          let tc : Compiled := { PipelineDirs := b.PipelineDirs, Needs := [], ExternalRefs := [] }
          match wrapErr "compiling main pipelines: "
              (CompilePipelines env sm fuel tc mt.Pipeline) with
          | .error e => .error e
          | .ok (tc2, mtP2) =>
            let cfg := { cfg with Test := some { mt with
              Pipeline := mtP2,
              EnvironmentPackages :=
                (mt.EnvironmentPackages ++ tc2.Needs) ++ [cfg.Package.Name] } }
            .ok { b with Configuration := cfg, externalRefs := c3.ExternalRefs }

/-! ## Concrete example inputs used by witnesses, counterexamples and failing-input evaluations -/

def exC2step : Pipeline :=
  .mk "" "" [] [] "" "" "false" (some ["gcc"])
    [.mk "" "" [] [] "" "" "" (some ["nested"]) []]

def exC4child : Pipeline := .mk "c" "" [] [] "" "" "" (some ["a"]) []

def exC4root : Pipeline := .mk "" "" [] [] "" "" "" none [exC4child]

def exC5tpl : Pipeline := .mk "fetch-tpl" "" [] [] "" "" "" none []

def exC5env : Env :=
  ⟨fun path => if path = "d2/fetch.yaml" then some "TPL" else none,
   fun _ => none,
   fun s => if s = "TPL" then some exC5tpl else none⟩

def exC5step : Pipeline := .mk "" "fetch" [] [] "" "" "" none []

def emptyEnv : Env := ⟨fun _ => none, fun _ => none, fun _ => none⟩

def exTplFetch : Pipeline :=
  .mk "fetch-tpl" "" [("tdef", "x")]
    [("uri", ⟨"", true⟩), ("depth", ⟨"5", false⟩)]
    "fetch $\x7b\x7binputs.uri\x7d\x7d" "" "" (some ["wget"]) []

def exTplEnv : Env :=
  ⟨fun _ => none,
   fun path => if path = "pipelines/fetch.yaml" then some "FETCH" else none,
   fun s => if s = "FETCH" then some exTplFetch else none⟩

def exSm : SubstitutionMap := ⟨[("$\x7b\x7bpackage.name\x7d\x7d", "pkg")]⟩

def exUseStep : Pipeline := .mk "" "fetch" [("uri", "https://x")] [] "" "" "" none []

def exMutated : List (String × String) :=
  [("$\x7b\x7binputs.uri\x7d\x7d", "https://x"), ("$\x7b\x7binputs.depth\x7d\x7d", "5"),
   ("$\x7b\x7bpackage.name\x7d\x7d", "pkg")]

def exUseOut : Pipeline :=
  .mk "fetch-tpl" "" [("uri", "https://x")] [] "fetch https://x" "" "" (some ["wget"]) []

def exUseOutAcc : Compiled := ⟨[], [], [⟨"fetch", exMutated⟩]⟩

def exC8ch : Pipeline := .mk "" "" [("b", "3")] [] "" "" "" none []

def exC9sp : Subpackage := ⟨"s1", "$\x7b\x7bmissing\x7d\x7d", [], none⟩

def exC9sp2 : Subpackage := ⟨"s2", "true", [.mk "" "zzz" [] [] "" "" "" none []], none⟩

/-- Spec-side description used by claim C10 (following the spec's words, for
comparison with Build.Compile): one shared accumulator folded over the main
pipeline's subpackages' build pipelines only — test pipelines and test
environments are untouched, so nothing a test pipeline produces can reach
this accumulator. -/
def buildOnlyAccumulate (env : Env) (sm : SubstitutionMap) (fuel : Nat) :
    Compiled → List Subpackage → Except String Compiled
  | c, [] => .ok c
  | c, sp :: rest =>
    match CompilePipelines env (SubstitutionMap.Subpackage sm sp) fuel c sp.Pipeline with
    | .error e => .error e
    | .ok (c2, _) => buildOnlyAccumulate env sm fuel c2 rest

def exC10cfg : Configuration :=
  { Package := ⟨"mainpkg"⟩
    EnvironmentPackages := ["base"]
    Pipeline := [.mk "" "" [] [] "" "" "" (some ["m1"]) []]
    Subpackages := [⟨"sub", "", [.mk "" "" [] [] "" "" "" (some ["s1"]) []],
                    some ⟨[], [.mk "" "" [] [] "" "" "" (some ["t1"]) []]⟩⟩]
    Test := some ⟨[], [.mk "" "" [] [] "" "" "" (some ["mt1"]) []]⟩ }

def exC10b : Build := ⟨exC10cfg, "x86_64", "gnu", [], [], []⟩

def exC10out : Build := ((Build.Compile emptyEnv 3 exC10b).toOption).getD exC10b

def exC10sm : SubstitutionMap :=
  ⟨[("$\x7b\x7bpackage.name\x7d\x7d", "mainpkg"), ("$\x7b\x7bbuild.arch\x7d\x7d", "x86_64"),
    ("$\x7b\x7bbuild.flavor\x7d\x7d", "gnu")]⟩

def exBugCfg : Configuration :=
  { Package := ⟨"mainpkg"⟩
    EnvironmentPackages := []
    Pipeline := []
    Subpackages := [ { Name := "sub", If := "", Pipeline := [],
                       Test := some { EnvironmentPackages := [],
                                      Pipeline := [.mk "" "" [] [] "" "" "" (some ["foo"]) []] } } ]
    Test := some { EnvironmentPackages := [],
                   Pipeline := [.mk "" "" [] [] "" "" "" (some ["bar"]) []] } }

def exBugT : Test :=
  { Configuration := exBugCfg, Package := "", Arch := "x86_64", PipelineDirs := [] }

/-! ## Helper lemmas -/

theorem wrapErr_ok {α : Type} {pre : String} {e : Except String α} {a : α} :
    wrapErr pre e = .ok a ↔ e = .ok a := by
  cases e <;> simp [wrapErr]

theorem lookup_cons_unfold {k a v : String} {l : List (String × String)} :
    List.lookup k ((a, v) :: l) = if k = a then some v else List.lookup k l := by
  by_cases h : k = a
  · simp [List.lookup, h]
  · rw [List.lookup, show (k == a) = false from beq_eq_false_iff_ne.mpr h, if_neg h]

theorem lookup_filter_keyless {w : List (String × String)} {k : String}
    (hk : List.lookup k w = none) (m : List (String × String)) :
    List.lookup k (m.filter (fun kv => (List.lookup kv.1 w).isNone)) = List.lookup k m := by
  induction m with
  | nil => rfl
  | cons a m ih =>
    obtain ⟨ka, va⟩ := a
    by_cases hak : k = ka
    · subst hak
      simp [List.filter_cons, hk, lookup_cons_unfold]
    · by_cases haw : (List.lookup ka w) = none
      · simp [List.filter_cons, haw, lookup_cons_unfold, hak, ih]
      · simp [List.filter_cons, haw, lookup_cons_unfold, hak, ih]

theorem lookup_filter_keyful {w : List (String × String)} {k v : String}
    (hk : List.lookup k w = some v) (m : List (String × String)) :
    List.lookup k (m.filter (fun kv => (List.lookup kv.1 w).isNone)) = none := by
  induction m with
  | nil => rfl
  | cons a m ih =>
    obtain ⟨ka, va⟩ := a
    by_cases hak : k = ka
    · subst hak
      simp [List.filter_cons, hk, lookup_cons_unfold, ih]
    · by_cases haw : (List.lookup ka w) = none
      · simp [List.filter_cons, haw, lookup_cons_unfold, hak, ih]
      · simp [List.filter_cons, haw, lookup_cons_unfold, hak, ih]

theorem lookup_append_str {k : String} (l r : List (String × String)) :
    List.lookup k (l ++ r) = ((List.lookup k l).orElse (fun _ => List.lookup k r)) := by
  induction l with
  | nil => simp [List.lookup]
  | cons a l ih =>
    obtain ⟨ka, va⟩ := a
    by_cases h : k = ka <;> simp [lookup_cons_unfold, h, ih]

theorem lookup_RightJoinMap (m w : List (String × String)) (k : String) :
    List.lookup k (RightJoinMap m w) =
      ((List.lookup k w).orElse (fun _ => List.lookup k m)) := by
  cases hw : List.lookup k w with
  | some v =>
    rw [RightJoinMap, lookup_append_str, lookup_filter_keyful hw, hw]
    simp [Option.orElse]
  | none =>
    rw [RightJoinMap, lookup_append_str, lookup_filter_keyless hw, hw]
    cases List.lookup k m <;> simp [Option.orElse]

/-- Claim C2: for every step of an already-compiled tree whose condition
expression evaluates to false, the aggregation pass appends neither that
step's required packages nor any descendant's to the accumulator, produces no
provenance references, does not visit the step's children, and does not
error: it returns the accumulator and the tree unchanged. -/
theorem claim_c2_false_condition_prunes (fuel : Nat) (c : Compiled) (p : Pipeline)
    (hIf : p.If ≠ "") (hFalse : condEvaluate p.If = .ok false) :
    gatherDeps (fuel + 1) c p = .ok (c, p) := by
  simp [gatherDeps, hIf, hFalse]

theorem claim_c2_witness :
    gatherDeps 4 (Compiled.mk [] [] []) exC2step = .ok (Compiled.mk [] [] [], exC2step) :=
  claim_c2_false_condition_prunes 3 (Compiled.mk [] [] []) exC2step (by decide) (by rfl)

theorem setNeeds_self {p : Pipeline} (h : p.Needs = none) : p.setNeeds none = p := by
  cases p
  simp [Pipeline.setNeeds]
  simp [Pipeline.Needs] at h
  exact h.symm

/-- Claim C4 (amended): for every step whose condition is absent or evaluates
to true, gatherDeps appends that step's required-package names (if any) to
the accumulator, clears the required-packages field on the step value it
returns for the node it was invoked on, and recurses into each of its
children in order — but the children are traversed on copies, whose cleared
fields are discarded, so only the top-level step's clearing persists. -/
theorem claim_c4_harvest_recurse (fuel : Nat) (c : Compiled) (p : Pipeline)
    (h : p.If = "" ∨ condEvaluate p.If = .ok true) :
    gatherDeps (fuel + 1) c p =
      (gatherDepsChildrenWith (gatherDeps fuel)
          { c with Needs := c.Needs ++ p.Needs.getD [] } (p.setNeeds none).children).map
        (fun c2 => (c2, p.setNeeds none)) := by
  have hbody : gatherHarvest (gatherDepsChildrenWith (gatherDeps fuel)) c p =
      (gatherDepsChildrenWith (gatherDeps fuel)
          { c with Needs := c.Needs ++ p.Needs.getD [] } (p.setNeeds none).children).map
        (fun c2 => (c2, p.setNeeds none)) := by
    cases hn : p.Needs with
    | some pkgs =>
      simp [gatherHarvest, hn]
      cases gatherDepsChildrenWith (gatherDeps fuel)
          { c with Needs := c.Needs ++ pkgs } (p.setNeeds none).children <;>
        simp [Except.map]
    | none =>
      rw [setNeeds_self hn]
      simp [gatherHarvest, hn]
      cases gatherDepsChildrenWith (gatherDeps fuel) c p.children <;> simp [Except.map]
  by_cases hIf : p.If = ""
  · simp [gatherDeps, hIf, hbody]
  · have htrue : condEvaluate p.If = .ok true := h.resolve_left hIf
    simp [gatherDeps, hIf, htrue, hbody]

/-- Claim C4 counterexample: harvesting a tree whose nested child carries
needs ["a"] returns the tree unchanged (the nested clearing is lost), and a
second harvest of the very tree gatherDeps returned yields ["a"] again
rather than nothing. -/
theorem claim_c4_counterexample :
    gatherDeps 5 (Compiled.mk [] [] []) exC4root = .ok (Compiled.mk [] ["a"] [], exC4root)
    ∧ ((gatherDeps 5 (Compiled.mk [] [] []) exC4root).bind
        (fun r => gatherDeps 5 (Compiled.mk [] [] []) r.2)).map (fun r => r.1.Needs)
        = .ok ["a"]
    ∧ (["a"] : List String) ≠ [] := by
  refine ⟨rfl, rfl, by decide⟩

theorem claim_c4_witness :
    gatherDeps 4 (Compiled.mk [] [] []) exC4root =
      (gatherDepsChildrenWith (gatherDeps 3)
          { Compiled.mk [] [] [] with Needs := [] ++ (Pipeline.Needs exC4root).getD [] }
          (exC4root.setNeeds none).children).map
        (fun c2 => (c2, exC4root.setNeeds none)) :=
  claim_c4_harvest_recurse 3 (Compiled.mk [] [] []) exC4root (Or.inl rfl)

/-- Claim C5: template resolution tries each configured lookup directory in
list order reading dir/name.yaml and uses the first successful read, falls
back to the embedded catalog under pipelines/name.yaml when every directory
read fails, errors exactly when both sources lack the template or the found
bytes fail to deserialize, is skipped entirely for a step with no template
reference, and its errors propagate verbatim out of the step's compilation. -/
theorem claim_c5_template_resolution (env : Env) (dirs : List String) (p : Pipeline)
    (sm : SubstitutionMap) (c : Compiled) (fuel : Nat) :
    (p.Uses = "" → resolveStepTemplate env dirs p = .ok p)
    ∧ (p.Uses ≠ "" → ∀ data, dirs.findSome? (fun pd => env.fs (tplPath pd p.Uses)) = some data →
        resolveStepTemplate env dirs p = parsePipelineData env p.Uses data)
    ∧ (p.Uses ≠ "" → dirs.findSome? (fun pd => env.fs (tplPath pd p.Uses)) = none →
        ∀ data, env.emb (embPath p.Uses) = some data →
        resolveStepTemplate env dirs p = parsePipelineData env p.Uses data)
    ∧ ((∃ e, resolveStepTemplate env dirs p = .error e) ↔
        (p.Uses ≠ "" ∧
          ((dirs.findSome? (fun pd => env.fs (tplPath pd p.Uses)) = none ∧
            env.emb (embPath p.Uses) = none)
           ∨ (∃ data, (dirs.findSome? (fun pd => env.fs (tplPath pd p.Uses)) = some data
                ∨ (dirs.findSome? (fun pd => env.fs (tplPath pd p.Uses)) = none ∧
                   env.emb (embPath p.Uses) = some data))
              ∧ env.parse data = none))))
    ∧ (∀ e, resolveStepTemplate env c.PipelineDirs p = .error e →
        compilePipeline env sm (fuel + 1) c p = .error e) := by
  refine ⟨?_, ?_, ?_, ?_, ?_⟩
  · intro h
    simp [resolveStepTemplate, h]
  · intro h data hfind
    simp [resolveStepTemplate, h, hfind]
  · intro h hfind data hemb
    simp [resolveStepTemplate, h, hfind, hemb]
  · constructor
    · rintro ⟨e, he⟩
      by_cases h : p.Uses = ""
      · simp [resolveStepTemplate, h] at he
      refine ⟨h, ?_⟩
      rw [resolveStepTemplate, if_neg h] at he
      cases hfind : dirs.findSome? (fun pd => env.fs (tplPath pd p.Uses)) with
      | some data =>
        rw [hfind] at he
        cases hp : env.parse data with
        | some q => simp [parsePipelineData, hp] at he
        | none => exact Or.inr ⟨data, Or.inl rfl, hp⟩
      | none =>
        rw [hfind] at he
        cases hemb : env.emb (embPath p.Uses) with
        | some data =>
          rw [hemb] at he
          cases hp : env.parse data with
          | some q => simp [parsePipelineData, hp] at he
          | none => exact Or.inr ⟨data, Or.inr ⟨rfl, rfl⟩, hp⟩
        | none => exact Or.inl ⟨rfl, rfl⟩
    · rintro ⟨h, hcase⟩
      rcases hcase with ⟨hfind, hemb⟩ | ⟨data, hsrc, hp⟩
      · exact ⟨_, by rw [resolveStepTemplate, if_neg h, hfind, hemb]⟩
      · rcases hsrc with hfind | ⟨hfind, hemb⟩
        · refine ⟨"unable to parse pipeline " ++ p.Uses, ?_⟩
          rw [resolveStepTemplate, if_neg h, hfind]
          simp [parsePipelineData, hp]
        · refine ⟨"unable to parse pipeline " ++ p.Uses, ?_⟩
          rw [resolveStepTemplate, if_neg h, hfind, hemb]
          simp [parsePipelineData, hp]
  · intro e he
    simp [compilePipeline, he]

theorem claim_c5_witness :
    resolveStepTemplate exC5env ["d1", "d2"] exC5step = parsePipelineData exC5env "fetch" "TPL"
    ∧ compilePipeline emptyEnv (SubstitutionMap.mk []) 1 (Compiled.mk ["d1"] [] []) exC5step
        = .error "unable to load pipeline: could not find uses pipeline fetch" :=
  ⟨(claim_c5_template_resolution exC5env ["d1", "d2"] exC5step ⟨[]⟩
      (Compiled.mk [] [] []) 0).2.1 (by decide) "TPL" rfl,
   (claim_c5_template_resolution emptyEnv [] exC5step ⟨[]⟩
      (Compiled.mk ["d1"] [] []) 0).2.2.2.2 _ rfl⟩

theorem compilePipeline_ok_inv {env : Env} {sm : SubstitutionMap} {fuel : Nat}
    {c c' : Compiled} {p p' : Pipeline}
    (h : compilePipeline env sm (fuel + 1) c p = .ok (c', p')) :
    ∃ q validated mutated needs2 wd2 runs2 if2 refs ch2,
      resolveStepTemplate env c.PipelineDirs p = .ok q ∧
      validateWith p.With q.Inputs = .ok validated ∧
      SubstitutionMap.MutateWith sm validated = .ok mutated ∧
      mutateNeedsF mutated q.Needs = .ok needs2 ∧
      mutateWorkDirF mutated q.WorkDir = .ok wd2 ∧
      MutateStringFromMap mutated q.Runs = .ok runs2 ∧
      mutateIfF mutated q.If = .ok if2 ∧
      computeExternalRefs p.Uses mutated = .ok refs ∧
      compileChildrenWith (compilePipeline env sm fuel) mutated
        { c with ExternalRefs := c.ExternalRefs ++ refs } 0 q.children = .ok (c', ch2) ∧
      p' = .mk q.Name q.Uses (cleanWith p.With q.Inputs mutated) [] runs2 wd2 if2 needs2 ch2 := by
  rw [compilePipeline] at h
  dsimp only at h
  split at h
  case h_1 => exact absurd h (by simp)
  case h_2 q hq =>
    split at h
    case h_1 => exact absurd h (by simp)
    case h_2 validated hv =>
      split at h
      case h_1 => exact absurd h (by simp)
      case h_2 mutated hm =>
        split at h
        case h_1 => exact absurd h (by simp)
        case h_2 needs2 hn =>
          split at h
          case h_1 => exact absurd h (by simp)
          case h_2 wd2 hw =>
            split at h
            case h_1 => exact absurd h (by simp)
            case h_2 runs2 hr =>
              split at h
              case h_1 => exact absurd h (by simp)
              case h_2 if2 hi =>
                split at h
                case h_1 => exact absurd h (by simp)
                case h_2 refs hrefs =>
                  split at h
                  case h_1 => exact absurd h (by simp)
                  all_goals
                    rename_i hcc
                    cases h
                    exact ⟨q, validated, mutated, needs2, wd2, runs2, if2, refs, _,
                      hq, wrapErr_ok.mp hv, wrapErr_ok.mp hm, wrapErr_ok.mp hn,
                      wrapErr_ok.mp hw, wrapErr_ok.mp hr, wrapErr_ok.mp hi,
                      wrapErr_ok.mp hrefs, hcc, rfl⟩

theorem cleanWith_mem_ne_default {withC : List (String × String)}
    {inputs : List (String × Input)} {mutated : List (String × String)}
    {kv : String × String} (h : kv ∈ cleanWith withC inputs mutated) :
    kv.2 ≠ ((List.lookup kv.1 inputs).map Input.Default).getD "" := by
  rw [cleanWith] at h
  simp only [List.mem_filterMap] at h
  obtain ⟨a, _, hf⟩ := h
  split at hf
  · rename_i hne
    cases hf
    simpa using hne
  · cases hf

/-- Claim C7: after a step compiles successfully, its documented-input schema
field is discarded (empty) and its stored parameter-override table contains
no entry whose substituted value equals that input's declared default (the
default being the empty string for an undeclared key). -/
theorem claim_c7_clean_overrides (env : Env) (sm : SubstitutionMap) (fuel : Nat)
    (c c' : Compiled) (p p' q : Pipeline)
    (hres : resolveStepTemplate env c.PipelineDirs p = .ok q)
    (h : compilePipeline env sm (fuel + 1) c p = .ok (c', p')) :
    p'.Inputs = [] ∧
    ∀ kv ∈ p'.With, kv.2 ≠ ((List.lookup kv.1 q.Inputs).map Input.Default).getD "" := by
  obtain ⟨q0, validated, mutated, n2, w2, r2, i2, refs, ch2,
    hq0, _, _, _, _, _, _, _, _, hp'⟩ := compilePipeline_ok_inv h
  rw [hres] at hq0
  cases hq0
  subst hp'
  exact ⟨rfl, fun kv hkv => cleanWith_mem_ne_default hkv⟩

/-- Claim C6: when a resolved template replaces the step's fields, the
overrides that are validated against the template's input schema and merged
into the substitution table are the step's original caller-supplied With
table captured before the replacement — not the replacement's own
parameter-override field. -/
theorem claim_c6_captured_overrides (env : Env) (sm : SubstitutionMap) (fuel : Nat)
    (c c' : Compiled) (p p' q : Pipeline)
    (h : compilePipeline env sm (fuel + 1) c p = .ok (c', p'))
    (hres : resolveStepTemplate env c.PipelineDirs p = .ok q) :
    ∃ validated mutated,
      validateWith p.With q.Inputs = .ok validated ∧
      SubstitutionMap.MutateWith sm validated = .ok mutated ∧
      p'.With = cleanWith p.With q.Inputs mutated := by
  obtain ⟨q0, validated, mutated, n2, w2, r2, i2, refs, ch2,
    hq0, hv, hm, _, _, _, _, _, _, hp'⟩ := compilePipeline_ok_inv h
  rw [hres] at hq0
  cases hq0
  subst hp'
  exact ⟨validated, mutated, hv, hm, rfl⟩

/-- Claim C8: before each child step is compiled, the parent's fully
substituted table is merged into the child's own override table by a
right-biased join — for a key present in both the child's value wins, keys
only in the parent's table are inherited — and the child is then compiled
with the same substitution context as the parent. -/
theorem claim_c8_child_right_join (env : Env) (sm : SubstitutionMap) (fuel : Nat)
    (mutated : List (String × String)) (c : Compiled) (i : Nat)
    (ch : Pipeline) (rest : List Pipeline) :
    (∀ k v, List.lookup k ch.With = some v →
        List.lookup k (RightJoinMap mutated ch.With) = some v)
    ∧ (∀ k, List.lookup k ch.With = none →
        List.lookup k (RightJoinMap mutated ch.With) = List.lookup k mutated)
    ∧ (compileChildrenWith (compilePipeline env sm fuel) mutated c i (ch :: rest) =
        match wrapErr ("compiling Pipeline[" ++ toString i ++ "]: ")
            (compilePipeline env sm fuel c (ch.setWith (RightJoinMap mutated ch.With))) with
        | .error e => .error e
        | .ok (c2, ch2) =>
          match compileChildrenWith (compilePipeline env sm fuel) mutated c2 (i + 1) rest with
          | .error e => .error e
          | .ok (c3, rest2) => .ok (c3, ch2 :: rest2)) := by
  refine ⟨?_, ?_, ?_⟩
  · intro k v hk
    rw [lookup_RightJoinMap, hk]
    rfl
  · intro k hk
    rw [lookup_RightJoinMap, hk]
    rfl
  · rfl

theorem claim_c7_witness :
    Pipeline.Inputs exUseOut = [] ∧
    ("uri", "https://x").2 ≠
      ((List.lookup ("uri", "https://x").1 exTplFetch.Inputs).map Input.Default).getD "" :=
  ⟨(claim_c7_clean_overrides exTplEnv exSm 2 (Compiled.mk [] [] []) exUseOutAcc
      exUseStep exUseOut exTplFetch rfl rfl).1,
   (claim_c7_clean_overrides exTplEnv exSm 2 (Compiled.mk [] [] []) exUseOutAcc
      exUseStep exUseOut exTplFetch rfl rfl).2 ("uri", "https://x") (by decide)⟩

theorem claim_c6_witness :
    ∃ validated mutated,
      validateWith exUseStep.With exTplFetch.Inputs = .ok validated ∧
      SubstitutionMap.MutateWith exSm validated = .ok mutated ∧
      exUseOut.With = cleanWith exUseStep.With exTplFetch.Inputs mutated :=
  claim_c6_captured_overrides exTplEnv exSm 2 (Compiled.mk [] [] []) exUseOutAcc
    exUseStep exUseOut exTplFetch rfl rfl

theorem claim_c8_witness :
    List.lookup "b" (RightJoinMap [("a", "1"), ("b", "2")] (Pipeline.With exC8ch)) = some "3"
    ∧ List.lookup "a" (RightJoinMap [("a", "1"), ("b", "2")] (Pipeline.With exC8ch)) = some "1" :=
  ⟨(claim_c8_child_right_join emptyEnv ⟨[]⟩ 0 [("a", "1"), ("b", "2")]
      (Compiled.mk [] [] []) 0 exC8ch []).1 "b" "3" rfl,
   ((claim_c8_child_right_join emptyEnv ⟨[]⟩ 0 [("a", "1"), ("b", "2")]
      (Compiled.mk [] [] []) 0 exC8ch []).2.1 "a" rfl).trans rfl⟩

/-- Claim C9: in both orchestrator entry points, a subpackage's non-empty
if-condition is substituted and shell-quoted against the subpackage-scoped
substitution context before any of that subpackage's pipelines are compiled;
a substitution failure aborts the compilation with an error naming the
subpackage context, and when it succeeds the subpackage's pipelines are
compiled (their failure surfacing under the subpackage's name). -/
theorem claim_c9_subpackage_if (env : Env) (fuel : Nat) (dirs : List String)
    (sm : SubstitutionMap) (ig c : Compiled) (sp : Subpackage) (rest : List Subpackage)
    (hIf : sp.If ≠ "") :
    (∀ e, MutateAndQuoteStringFromMap (SubstitutionMap.Subpackage sm sp).Substitutions sp.If
          = .error e →
        testSubpkgLoop env fuel dirs sm ig c (sp :: rest)
          = .error ("mutating subpackage if: " ++ e)
        ∧ buildSubpkgLoop env fuel dirs sm c (sp :: rest)
          = .error ("mutating subpackage if: " ++ e))
    ∧ (∀ v e2, MutateAndQuoteStringFromMap (SubstitutionMap.Subpackage sm sp).Substitutions sp.If
          = .ok v →
        CompilePipelines env (SubstitutionMap.Subpackage sm sp) fuel ig sp.Pipeline = .error e2 →
        testSubpkgLoop env fuel dirs sm ig c (sp :: rest)
          = .error ("compiling subpackage \"" ++ sp.Name ++ "\": " ++ e2))
    ∧ (∀ v e2, MutateAndQuoteStringFromMap (SubstitutionMap.Subpackage sm sp).Substitutions sp.If
          = .ok v →
        CompilePipelines env (SubstitutionMap.Subpackage sm sp) fuel c sp.Pipeline = .error e2 →
        buildSubpkgLoop env fuel dirs sm c (sp :: rest)
          = .error ("compiling subpackage \"" ++ sp.Name ++ "\": " ++ e2)) := by
  refine ⟨?_, ?_, ?_⟩
  · intro e he
    constructor
    · rw [testSubpkgLoop]
      simp [hIf, he, wrapErr]
    · rw [buildSubpkgLoop]
      simp [hIf, he, wrapErr]
  · intro v e2 hv hc
    rw [testSubpkgLoop]
    simp [hIf, hv, wrapErr, hc]
  · intro v e2 hv hc
    rw [buildSubpkgLoop]
    simp [hIf, hv, wrapErr, hc]

theorem claim_c9_witness :
    testSubpkgLoop emptyEnv 1 [] ⟨[]⟩ (Compiled.mk [] [] []) (Compiled.mk [] [] []) [exC9sp]
      = .error "mutating subpackage if: variable $\x7b\x7bmissing\x7d\x7d not found"
    ∧ buildSubpkgLoop emptyEnv 1 [] ⟨[]⟩ (Compiled.mk [] [] []) [exC9sp]
      = .error "mutating subpackage if: variable $\x7b\x7bmissing\x7d\x7d not found"
    ∧ testSubpkgLoop emptyEnv 1 [] ⟨[]⟩ (Compiled.mk [] [] []) (Compiled.mk [] [] []) [exC9sp2]
      = .error "compiling subpackage \"s2\": compiling Pipeline[0]: unable to load pipeline: could not find uses pipeline zzz" :=
  ⟨((claim_c9_subpackage_if emptyEnv 1 [] ⟨[]⟩ (Compiled.mk [] [] [])
      (Compiled.mk [] [] []) exC9sp [] (by decide)).1 _ rfl).1,
   ((claim_c9_subpackage_if emptyEnv 1 [] ⟨[]⟩ (Compiled.mk [] [] [])
      (Compiled.mk [] [] []) exC9sp [] (by decide)).1 _ rfl).2,
   (claim_c9_subpackage_if emptyEnv 1 [] ⟨[]⟩ (Compiled.mk [] [] [])
      (Compiled.mk [] [] []) exC9sp2 [] (by decide)).2.1 "true" _ rfl rfl⟩

theorem buildSubpkgLoop_accumulator {env : Env} {fuel : Nat} {dirs : List String}
    {sm : SubstitutionMap} :
    ∀ (sps : List Subpackage) (c cf : Compiled) (sps2 : List Subpackage),
    buildSubpkgLoop env fuel dirs sm c sps = .ok (cf, sps2) →
    buildOnlyAccumulate env sm fuel c sps = .ok cf := by
  intro sps
  induction sps with
  | nil =>
    intro c cf sps2 h
    rw [buildSubpkgLoop] at h
    cases h
    rfl
  | cons sp rest ih =>
    intro c cf sps2 h
    rw [buildSubpkgLoop] at h
    cases hif0 : (if sp.If ≠ "" then
        MutateAndQuoteStringFromMap (SubstitutionMap.Subpackage sm sp).Substitutions sp.If
      else .ok sp.If) with
    | error e => simp [hif0, wrapErr] at h
    | ok v =>
      cases hcp : CompilePipelines env (SubstitutionMap.Subpackage sm sp) fuel c sp.Pipeline with
      | error e => simp [hif0, hcp, wrapErr] at h
      | ok pr =>
        obtain ⟨c2, spP2⟩ := pr
        rw [buildOnlyAccumulate, hcp]
        simp only [hif0, hcp, wrapErr] at h
        cases hT : sp.Test with
        | none =>
          simp only [hT] at h
          cases hrec : buildSubpkgLoop env fuel dirs sm c2 rest with
          | error e => simp [hrec] at h
          | ok pr2 =>
            obtain ⟨c3, rest2⟩ := pr2
            simp only [hrec] at h
            cases h
            exact ih _ _ _ hrec
        | some st =>
          simp only [hT] at h
          cases hct : CompilePipelines env (SubstitutionMap.Subpackage sm sp) fuel
              { PipelineDirs := dirs, Needs := [], ExternalRefs := [] } st.Pipeline with
          | error e => simp [hct, wrapErr] at h
          | ok pr2 =>
            obtain ⟨tc2, stP2⟩ := pr2
            simp only [hct, wrapErr] at h
            cases hrec : buildSubpkgLoop env fuel dirs sm c2 rest with
            | error e => simp [hrec] at h
            | ok pr3 =>
              obtain ⟨c3, rest2⟩ := pr3
              simp only [hrec] at h
              cases h
              exact ih _ _ _ hrec

/-- Claim C10: a successful Build.Compile aggregates the main pipeline and
every subpackage's build pipeline into one shared accumulator, in
compilation order: the build environment's package list gains exactly that
accumulator's needs, and the exported external-reference list is exactly
that accumulator's references — computed by a fold that never reads any test
section, so test pipelines' external references are never exposed. -/
theorem claim_c10_shared_accumulator (env : Env) (fuel : Nat) (b b2 : Build)
    (sm : SubstitutionMap)
    (hsm : NewSubstitutionMap b.Configuration b.Arch b.BuildFlavor b.EnabledBuildOptions
      = .ok sm)
    (h : Build.Compile env fuel b = .ok b2) :
    ∃ cMain mainP2 cFinal,
      CompilePipelines env sm fuel
        { PipelineDirs := b.PipelineDirs, Needs := [], ExternalRefs := [] }
        b.Configuration.Pipeline = .ok (cMain, mainP2) ∧
      buildOnlyAccumulate env sm fuel cMain b.Configuration.Subpackages = .ok cFinal ∧
      b2.externalRefs = cFinal.ExternalRefs ∧
      b2.Configuration.EnvironmentPackages
        = b.Configuration.EnvironmentPackages ++ cFinal.Needs := by
  rw [Build.Compile] at h
  simp only [hsm] at h
  cases hmain : CompilePipelines env sm fuel
      { PipelineDirs := b.PipelineDirs, Needs := [], ExternalRefs := [] }
      b.Configuration.Pipeline with
  | error e => simp [hmain, wrapErr] at h
  | ok prMain =>
    obtain ⟨cMain, mainP2⟩ := prMain
    simp only [hmain, wrapErr] at h
    cases hloop : buildSubpkgLoop env fuel b.PipelineDirs sm cMain
        b.Configuration.Subpackages with
    | error e => simp [hloop] at h
    | ok prLoop =>
      obtain ⟨c3, sps2⟩ := prLoop
      simp only [hloop] at h
      refine ⟨cMain, mainP2, c3, rfl, buildSubpkgLoop_accumulator _ _ _ _ hloop, ?_⟩
      cases hTest : b.Configuration.Test with
      | none =>
        simp only [hTest] at h
        cases h
        exact ⟨rfl, rfl⟩
      | some mt =>
        simp only [hTest] at h
        cases hmt : CompilePipelines env sm fuel
            { PipelineDirs := b.PipelineDirs, Needs := [], ExternalRefs := [] }
            mt.Pipeline with
        | error e => simp [hmt, wrapErr] at h
        | ok prMt =>
          obtain ⟨tc2, mtP2⟩ := prMt
          simp only [hmt, wrapErr] at h
          cases h
          exact ⟨rfl, rfl⟩

theorem claim_c10_witness :
    ∃ cMain mainP2 cFinal,
      CompilePipelines emptyEnv exC10sm 3
        { PipelineDirs := exC10b.PipelineDirs, Needs := [], ExternalRefs := [] }
        exC10b.Configuration.Pipeline = .ok (cMain, mainP2) ∧
      buildOnlyAccumulate emptyEnv exC10sm 3 cMain exC10b.Configuration.Subpackages
        = .ok cFinal ∧
      exC10out.externalRefs = cFinal.ExternalRefs ∧
      exC10out.Configuration.EnvironmentPackages
        = exC10b.Configuration.EnvironmentPackages ++ cFinal.Needs :=
  claim_c10_shared_accumulator emptyEnv 3 exC10b exC10out exC10sm rfl rfl

/-- Claim C1 (failing-input evaluation): in the standalone test entry point,
a subpackage with a test pipeline needing ["foo"] ends with test-environment
package list ["sub"] — the subpackage's own name only. The aggregated needs
of its test pipeline are missing, because the per-subpackage accumulator is
never compiled into; the claim expects ["sub", "foo"]. -/
theorem claim_c1_subpackage_test_needs_dropped :
    (Test.Compile emptyEnv 5 exBugT).map (fun t =>
        t.Configuration.Subpackages.map
          (fun sp => (sp.Test.map TestSection.EnvironmentPackages).getD []))
      = .ok [["sub"]]
    ∧ (["sub"] : List String) ≠ ["sub", "foo"] :=
  ⟨rfl, by decide⟩

/-- Claim C3 (failing-input evaluation): in the standalone test entry point,
the overall test environment gains ["mainpkg", "bar", "foo"] — the package
name, the main test pipeline's needs, and also the subpackage test
pipeline's needs, which leak through the shared accumulator; the claim's
"and nothing else" expects ["mainpkg", "bar"]. -/
theorem claim_c3_main_test_env_leaks_subpackage_needs :
    (Test.Compile emptyEnv 5 exBugT).map (fun t =>
        (t.Configuration.Test.map TestSection.EnvironmentPackages).getD [])
      = .ok ["mainpkg", "bar", "foo"]
    ∧ (["mainpkg", "bar", "foo"] : List String) ≠ ["mainpkg", "bar"] :=
  ⟨rfl, by decide⟩
